import Mathlib

/-!
Verification of the test-slot logic of the CPEditor main window
(src/mainwindow.cc): the tolerant output-verdict comparator
isVerdictPass, the test-slot persistence routines loadTests and
saveTests, the dirty-state tracker isTextChanged with its
confirmation protocol closeChangedConfirm, the run-completion
callback executionFinished, and clearTests.

Texts (QString) are modelled as List Char.  The file system is
modelled explicitly: a finite association list from paths to file
contents, together with the sets of paths on which opening for
reading or for writing fails (permission errors).
-/

/-- Whitespace as stripped by QString::trimmed (QChar::isSpace, ASCII part). -/
def isQtSpace (c : Char) : Bool :=
  c == ' ' || c == '\t' || c == '\n' || c == '\x0b' || c == '\x0c' || c == '\r'

/-- QString::trimmed: strip leading and trailing whitespace. -/
def trimmed (s : List Char) : List Char :=
  ((s.dropWhile isQtSpace).reverse.dropWhile isQtSpace).reverse

/-- The test trimmed().isEmpty() used throughout the source for blank
lines, blank tokens and blank test slots. -/
def isBlank (s : List Char) : Bool := (trimmed s).isEmpty

/-- QString::remove of the carriage-return character: drop every occurrence. -/
def removeCR (s : List Char) : List Char := s.filter (fun c => c != '\r')

/-- QString::split on a single separator character, keeping empty parts
(the Qt 5 default).  Splitting the empty text yields one empty part. -/
def splitOn (sep : Char) : List Char → List (List Char)
  | [] => [[]]
  | c :: cs =>
    if c == sep then [] :: splitOn sep cs
    else
      match splitOn sep cs with
      | [] => [[c]]
      | w :: ws => (c :: w) :: ws

/-- The lock-step walk shared by the two loops of MainWindow::isVerdictPass:
positions present in both sequences are compared with f; a tail present on
one side only is accepted exactly when each of its elements is blank, and
the loop fails at the first non-blank excess element. -/
def lockStep {α : Type} (f : α → α → Bool) (blank : α → Bool) :
    List α → List α → Bool
  | [], bs => bs.all blank
  | a :: as, [] => blank a && lockStep f blank as []
  | a :: as, b :: bs => f a b && lockStep f blank as bs

/-- The inner loop of MainWindow::isVerdictPass: lock-step comparison of the
words of one line, where words present on both sides must be exactly equal. -/
def wordsPass (aw bw : List (List Char)) : Bool :=
  lockStep (fun a b => a == b) isBlank aw bw

/-- MainWindow::isVerdictPass (mainwindow.cc 535-573): strip carriage
returns from both texts, split into lines on the newline character, and walk
the line lists in lock-step; lines present in both are split into words on
the single space character and compared word-wise in lock-step, with a line
or word present on one side only accepted exactly when blank after trimming. -/
def isVerdictPass (output expected : List Char) : Bool :=
  lockStep (fun la lb => wordsPass (splitOn ' ' la) (splitOn ' ' lb)) isBlank
    (splitOn '\n' (removeCR output)) (splitOn '\n' (removeCR expected))

/-- Modelled from the spec (section 4.1, steps 3-4): the lock-step walk over
the indices 0 .. max of the two lengths, where an index present in only one
sequence must point at a blank element and an index present in both is
compared with f. -/
def specLockStep {α : Type} (f : α → α → Bool) (blank : α → Bool) (d : α)
    (as bs : List α) : Bool :=
  (List.range (max as.length bs.length)).all fun i =>
    if i < as.length then
      if i < bs.length then f (as.getD i d) (bs.getD i d)
      else blank (as.getD i d)
    else if i < bs.length then blank (bs.getD i d) else true

/-- Modelled from the spec (section 4.1): the reference comparison
algorithm, worded as an indexed walk up to the longer length at both the
line level and the word level. -/
def specVerdictPass (actual expected : List Char) : Bool :=
  specLockStep
    (fun la lb => specLockStep (fun a b => a == b) isBlank []
      (splitOn ' ' la) (splitOn ' ' lb))
    isBlank []
    (splitOn '\n' (removeCR actual)) (splitOn '\n' (removeCR expected))

theorem range_all_shift (g : Nat → Bool) (n : Nat) :
    (List.range (n + 1)).all g = (g 0 && (List.range n).all (fun i => g (i + 1))) := by
  rw [List.range_succ_eq_map, List.all_cons, List.all_map]
  rfl

theorem range_all_congr (g1 g2 : Nat → Bool) (n : Nat)
    (h : ∀ i, i < n → g1 i = g2 i) :
    (List.range n).all g1 = (List.range n).all g2 := by
  induction n with
  | zero => rfl
  | succ n ih =>
    rw [List.range_succ, List.all_append, List.all_append,
      ih (fun i hi => h i (Nat.lt_succ_of_lt hi))]
    simp [h n (Nat.lt_succ_self n)]

theorem specLockStep_nil_left {α : Type} (f : α → α → Bool) (blank : α → Bool)
    (d : α) : ∀ bs : List α, specLockStep f blank d [] bs = bs.all blank := by
  intro bs
  induction bs with
  | nil => rfl
  | cons b bs ih =>
    rw [List.all_cons, ← ih]
    show (List.range (max 0 (bs.length + 1))).all _ = _
    rw [Nat.zero_max, range_all_shift]
    have h0 : (if (0 : Nat) < ([] : List α).length then
        (if (0 : Nat) < (b :: bs).length then f (([] : List α).getD 0 d) ((b :: bs).getD 0 d)
         else blank (([] : List α).getD 0 d))
      else if (0 : Nat) < (b :: bs).length then blank ((b :: bs).getD 0 d) else true)
        = blank b := by simp
    rw [h0]
    congr 1
    show (List.range bs.length).all _ = (List.range (max 0 bs.length)).all _
    rw [Nat.zero_max]
    apply range_all_congr
    intro i _
    simp

theorem specLockStep_cons_nil {α : Type} (f : α → α → Bool) (blank : α → Bool)
    (d : α) (a : α) (as : List α) :
    specLockStep f blank d (a :: as) [] =
      (blank a && specLockStep f blank d as []) := by
  show (List.range (max (as.length + 1) 0)).all _ = _
  rw [Nat.max_zero, range_all_shift]
  have h0 : (if (0 : Nat) < (a :: as).length then
      (if (0 : Nat) < ([] : List α).length then f ((a :: as).getD 0 d) (([] : List α).getD 0 d)
       else blank ((a :: as).getD 0 d))
    else if (0 : Nat) < ([] : List α).length then blank (([] : List α).getD 0 d) else true)
      = blank a := by simp
  rw [h0]
  congr 1
  show (List.range as.length).all _ = (List.range (max as.length 0)).all _
  rw [Nat.max_zero]
  apply range_all_congr
  intro i _
  simp

theorem specLockStep_cons_cons {α : Type} (f : α → α → Bool) (blank : α → Bool)
    (d : α) (a b : α) (as bs : List α) :
    specLockStep f blank d (a :: as) (b :: bs) =
      (f a b && specLockStep f blank d as bs) := by
  show (List.range (max (as.length + 1) (bs.length + 1))).all _ = _
  rw [Nat.succ_max_succ, range_all_shift]
  have h0 : (if (0 : Nat) < (a :: as).length then
      (if (0 : Nat) < (b :: bs).length then f ((a :: as).getD 0 d) ((b :: bs).getD 0 d)
       else blank ((a :: as).getD 0 d))
    else if (0 : Nat) < (b :: bs).length then blank ((b :: bs).getD 0 d) else true)
      = f a b := by simp
  rw [h0]
  congr 1
  apply range_all_congr
  intro i _
  simp

theorem specLockStep_eq_lockStep {α : Type} (f : α → α → Bool)
    (blank : α → Bool) (d : α) :
    ∀ as bs : List α, specLockStep f blank d as bs = lockStep f blank as bs := by
  intro as
  induction as with
  | nil => intro bs; rw [specLockStep_nil_left]; rfl
  | cons a as ih =>
    intro bs
    cases bs with
    | nil => rw [specLockStep_cons_nil, ih]; rfl
    | cons b bs => rw [specLockStep_cons_cons, ih]; rfl

theorem lockStep_refl {α : Type} (f : α → α → Bool) (blank : α → Bool)
    (hf : ∀ a, f a a = true) : ∀ l, lockStep f blank l l = true := by
  intro l
  induction l with
  | nil => rfl
  | cons a as ih => simp [lockStep, hf, ih]

-- sanity checks on the spec test vectors (section 8)
example : isVerdictPass ("1 2\n3 4".data) ("1 2\n3 4\n\n".data) = true := by decide
example : isVerdictPass ("a\r\nb".data) ("a\nb".data) = true := by decide
example : isVerdictPass ("1 2 3".data) ("1 2".data) = false := by decide
example : isVerdictPass ("1 2 ".data) ("1 2".data) = true := by decide
example : isVerdictPass [] [] = true := by decide
example : specVerdictPass ("1 2 3".data) ("1 2".data) = false := by decide
example : specVerdictPass ("1 2\n3 4".data) ("1 2\n3 4\n\n".data) = true := by decide

/-- C1: isVerdictPass coincides on every pair of texts with the reference
algorithm of spec section 4.1 (strip carriage returns, split into lines on
the newline, walk both line sequences in lock-step up to the longer length
with the trim-if-missing rule, and for lines present in both sequences
split on the single space character and apply the same lock-step rule to
the words, failing on any word mismatch). -/
theorem C1_isVerdictPass_matches_spec (actual expected : List Char) :
    isVerdictPass actual expected = specVerdictPass actual expected := by
  unfold isVerdictPass specVerdictPass
  rw [specLockStep_eq_lockStep]
  have hfun : (fun la lb => specLockStep (fun a b : List Char => a == b) isBlank []
        (splitOn ' ' la) (splitOn ' ' lb))
      = (fun la lb => wordsPass (splitOn ' ' la) (splitOn ' ' lb)) := by
    funext la lb
    rw [specLockStep_eq_lockStep]
    rfl
  rw [hfun]

/-- C9: the verdict comparator is reflexive — for every text T,
isVerdictPass T T returns true. -/
theorem C9_isVerdictPass_refl (T : List Char) : isVerdictPass T T = true := by
  unfold isVerdictPass
  apply lockStep_refl
  intro la
  apply lockStep_refl
  intro w
  exact beq_self_eq_true w

/-! ## File-system model

A file system is a finite association list from paths to contents plus the
sets of paths on which opening for reading or for writing fails with a
permission error.  QFile::exists consults the association list;
QFile::open(ReadOnly) succeeds on an existing path not in readFail;
QFile::open(WriteOnly) or open(ReadWrite) followed by resize(0) and write
replaces (or creates) the contents of a path not in writeFail. -/

/-- Replace the entry for a path in an association list, or append it. -/
def setEntry : List (List Char × List Char) → List Char → List Char →
    List (List Char × List Char)
  | [], q, v => [(q, v)]
  | e :: rest, q, v => if e.1 = q then (q, v) :: rest else e :: setEntry rest q v

/-- The file-system state seen by the window. -/
structure FS where
  files : List (List Char × List Char)
  readFail : List (List Char)
  writeFail : List (List Char)
deriving DecidableEq

/-- First entry for a path in an association list. -/
def lookupEntry : List (List Char × List Char) → List Char → Option (List Char)
  | [], _ => none
  | e :: rest, q => if e.1 = q then some e.2 else lookupEntry rest q

/-- Contents of a path, when the path exists. -/
def FS.lookup (fs : FS) (q : List Char) : Option (List Char) :=
  lookupEntry fs.files q

/-- QFile::exists. -/
def FS.fileExists (fs : FS) (q : List Char) : Bool := (fs.lookup q).isSome

/-- Whether opening the path for reading succeeds (given that it exists). -/
def FS.canRead (fs : FS) (q : List Char) : Bool := !(q ∈ fs.readFail : Bool)

/-- Whether opening the path for writing succeeds. -/
def FS.canWrite (fs : FS) (q : List Char) : Bool := !(q ∈ fs.writeFail : Bool)

/-- QFile::readAll on a successfully opened file. -/
def FS.read (fs : FS) (q : List Char) : List Char := (fs.lookup q).getD []

/-- Overwrite (or create) the file at a path with the given contents. -/
def FS.write (fs : FS) (q v : List Char) : FS :=
  { fs with files := setEntry fs.files q v }

/-! ## Sibling test-file paths

loadTests and saveTests derive the base
fileInfo.dir().absolutePath() + "/" + fileInfo.completeBaseName()
from the backing file path and append the 1-indexed slot number and the
extension ".in" or ".ans".  Paths are taken to be absolute, with the
directory part everything before the last slash of the path, the file name
everything after it, and the complete base name the file name up to (but
not including) its last dot. -/

/-- QFileInfo::fileName: the part of the path after the last slash. -/
def fileNameOf (p : List Char) : List Char :=
  (p.reverse.takeWhile (fun c => c != '/')).reverse

/-- QFileInfo::dir().absolutePath(): the part of the path before the last
slash (for the absolute paths this model works with). -/
def dirOf (p : List Char) : List Char :=
  ((p.reverse.dropWhile (fun c => c != '/')).drop 1).reverse

/-- QFileInfo::completeBaseName: the file name up to (but not including)
its last dot; the whole file name when it has no dot. -/
def completeBaseName (name : List Char) : List Char :=
  if name.contains '.' then
    ((name.reverse.dropWhile (fun c => c != '.')).drop 1).reverse
  else name

/-- The testFile base string computed by loadTests and saveTests. -/
def testFileBase (p : List Char) : List Char :=
  dirOf p ++ '/' :: completeBaseName (fileNameOf p)

/-- QString::number(i + 1) for a slot index. -/
def slotDigit (i : Fin 3) : List Char := (Nat.repr (i.val + 1)).data

/-- The extension ".in". -/
def dotIn : List Char := ['.', 'i', 'n']

/-- The extension ".ans". -/
def dotAns : List Char := ['.', 'a', 'n', 's']

/-- The sibling input file of slot i: testFile + number(i+1) + ".in". -/
def inPath (p : List Char) (i : Fin 3) : List Char :=
  testFileBase p ++ (slotDigit i ++ dotIn)

/-- The sibling answer file of slot i: testFile + number(i+1) + ".ans". -/
def ansPath (p : List Char) (i : Fin 3) : List Char :=
  testFileBase p ++ (slotDigit i ++ dotAns)

/-! ## Window state -/

/-- Core::Verdict. -/
inductive Verdict where
  | UNKNOWN
  | ACCEPTED
  | WRONG_ANSWER
deriving DecidableEq

/-- One test slot: the input editor text, the expected-output string, the
actual-output editor text and the verdict label. -/
structure Slot where
  input : List Char
  expected : List Char
  output : List Char
  verdict : Verdict
deriving DecidableEq

/-- The state of the main window that the verified operations touch: the
three test slots, the optional backing file (its path and whether its
handle is open), the save-tests flag, the editor buffer and the configured
template path. -/
structure WState where
  slots : Fin 3 → Slot
  openFile : Option (List Char)
  openIsOpen : Bool
  shouldSaveTests : Bool
  editorText : List Char
  templatePath : List Char

/-- MainWindow::clearTests (mainwindow.cc 132-141): clear the actual
output and reset the verdict of every slot to UNKNOWN; when outputOnly is
false additionally clear every input and expected output. -/
def clearTests (st : WState) (outputOnly : Bool) : WState :=
  { st with slots := fun i =>
      { input := if outputOnly then (st.slots i).input else []
        expected := if outputOnly then (st.slots i).expected else []
        output := []
        verdict := Verdict.UNKNOWN } }

/-- One iteration of the loadTests loop (mainwindow.cc 151-183): when the
sibling .in file of slot i exists and opens for reading, its full contents
replace the input of slot i; the same for the .ans file and the expected
output; a missing or unreadable file leaves the field untouched. -/
def loadSlot (p : List Char) (fs : FS) (i : Fin 3) (st : WState) : WState :=
  let s0 := st.slots i
  let s1 := if fs.fileExists (inPath p i) && fs.canRead (inPath p i) then
      { s0 with input := fs.read (inPath p i) } else s0
  let s2 := if fs.fileExists (ansPath p i) && fs.canRead (ansPath p i) then
      { s1 with expected := fs.read (ansPath p i) } else s1
  { st with slots := Function.update st.slots i s2 }

/-- MainWindow::loadTests (mainwindow.cc 143-184): a no-op unless a backing
file exists and the save-tests flag is on; otherwise process the three
slots in order. -/
def loadTests (st : WState) (fs : FS) : WState :=
  match st.openFile with
  | none => st
  | some p =>
    if st.shouldSaveTests then
      loadSlot p fs 2 (loadSlot p fs 1 (loadSlot p fs 0 st))
    else st

/-- One iteration of the saveTests loop (mainwindow.cc 194-237): when the
input of slot i is non-blank after trimming, overwrite its sibling .in file
with the raw input, provided the file opens for writing; the same for the
expected output and the .ans file.  Blank fields write nothing and a failed
open leaves the file system unchanged. -/
def saveSlot (p : List Char) (st : WState) (i : Fin 3) (fs : FS) : FS :=
  let fs1 := if !(isBlank (st.slots i).input) then
      (if fs.canWrite (inPath p i) then
        fs.write (inPath p i) (st.slots i).input else fs)
    else fs
  if !(isBlank (st.slots i).expected) then
    (if fs1.canWrite (ansPath p i) then
      fs1.write (ansPath p i) (st.slots i).expected else fs1)
  else fs1

/-- MainWindow::saveTests (mainwindow.cc 186-238): a no-op unless a backing
file exists and the save-tests flag is on; otherwise process the three
slots in order. -/
def saveTests (st : WState) (fs : FS) : FS :=
  match st.openFile with
  | none => fs
  | some p =>
    if st.shouldSaveTests then
      saveSlot p st 2 (saveSlot p st 1 (saveSlot p st 0 fs))
    else fs

/-- MainWindow::executionFinished (mainwindow.cc 384-400): store the
captured standard output in slot id; when it is empty or the expected
output of slot id is empty, leave the verdict untouched, otherwise set it
to ACCEPTED or WRONG_ANSWER according to isVerdictPass.  The elapsed time
is only logged. -/
def executionFinished (st : WState) (id : Fin 3) (_msec : Int)
    (stdoutText : List Char) : WState :=
  let s := st.slots id
  let s1 := { s with output := stdoutText }
  if stdoutText.isEmpty || s.expected.isEmpty then
    { st with slots := Function.update st.slots id s1 }
  else
    let s2 := { s1 with verdict := if isVerdictPass stdoutText s.expected
        then Verdict.ACCEPTED else Verdict.WRONG_ANSWER }
    { st with slots := Function.update st.slots id s2 }

/-- MainWindow::isTextChanged (mainwindow.cc 614-628).  With no backing
file, the buffer is compared against the template file when one is
configured and exists (a template that fails to open reads back as empty),
and against the empty text otherwise.  With an open backing file the
buffer is compared against the current on-disk contents; a backing handle
that is not open reports changed. -/
def isTextChanged (st : WState) (fs : FS) : Bool :=
  match st.openFile with
  | none =>
    if st.templatePath.length != 0 && fs.fileExists st.templatePath then
      st.editorText != (if fs.canRead st.templatePath
        then fs.read st.templatePath else [])
    else !st.editorText.isEmpty
  | some p =>
    if st.openIsOpen then fs.read p != st.editorText
    else true

/-- The three buttons of the save prompt of closeChangedConfirm. -/
inductive Choice where
  | save
  | discard
  | cancel
deriving DecidableEq

/-- MainWindow::saveFile (mainwindow.cc 575-612).  The file-dialog result
is passed in as dlg (none models a cancelled dialog).  With no backing
file and force set, a chosen path becomes the backing file, opened
read-write; on a successful open the buffer is written to it.  With a
backing file the buffer is written through its handle.  Both branches then
call saveTests and return true; writes through a handle that failed to
open are dropped. -/
def saveFile (force : Bool) (dlg : Option (List Char)) (st : WState)
    (fs : FS) : Bool × WState × FS :=
  match st.openFile with
  | none =>
    if force then
      match dlg with
      | none => (false, st, fs)
      | some fn =>
        let opened := fs.canRead fn && fs.canWrite fn
        let fs1 := if opened then fs.write fn st.editorText else fs
        let st1 := { st with openFile := some fn, openIsOpen := opened }
        (true, st1, saveTests st1 fs1)
    else (false, st, fs)
  | some p =>
    let fs1 := if st.openIsOpen then fs.write p st.editorText else fs
    (true, st, saveTests st fs1)

/-- MainWindow::closeChangedConfirm (mainwindow.cc 630-645): succeed
silently when the text is unchanged; otherwise the prompt result decides:
Save delegates to saveFile, Discard succeeds without writing, Cancel
fails. -/
def closeChangedConfirm (choice : Choice) (dlg : Option (List Char))
    (st : WState) (fs : FS) : Bool × WState × FS :=
  if isTextChanged st fs then
    match choice with
    | Choice.save => saveFile true dlg st fs
    | Choice.discard => (true, st, fs)
    | Choice.cancel => (false, st, fs)
  else (true, st, fs)

/-! ## Helper lemmas about the file-system model -/

theorem lookupEntry_setEntry_self (l : List (List Char × List Char))
    (q v : List Char) : lookupEntry (setEntry l q v) q = some v := by
  induction l with
  | nil => simp [setEntry, lookupEntry]
  | cons e rest ih =>
    by_cases h : e.1 = q
    · simp [setEntry, h, lookupEntry]
    · simp [setEntry, h, lookupEntry, ih]

theorem lookupEntry_setEntry_ne (l : List (List Char × List Char))
    (q v r : List Char) (h : r ≠ q) :
    lookupEntry (setEntry l q v) r = lookupEntry l r := by
  induction l with
  | nil => simp [setEntry, lookupEntry, Ne.symm h]
  | cons e rest ih =>
    by_cases he : e.1 = q
    · subst he
      simp [setEntry, lookupEntry, Ne.symm h]
    · simp [setEntry, he, lookupEntry, ih]

theorem FS.lookup_write_self (fs : FS) (q v : List Char) :
    (fs.write q v).lookup q = some v :=
  lookupEntry_setEntry_self fs.files q v

theorem FS.lookup_write_ne (fs : FS) (q v r : List Char) (h : r ≠ q) :
    (fs.write q v).lookup r = fs.lookup r :=
  lookupEntry_setEntry_ne fs.files q v r h

theorem FS.read_write_self (fs : FS) (q v : List Char) :
    (fs.write q v).read q = v := by
  unfold FS.read
  rw [FS.lookup_write_self]
  rfl

theorem FS.canWrite_write (fs : FS) (q v r : List Char) :
    (fs.write q v).canWrite r = fs.canWrite r := rfl

theorem FS.canRead_write (fs : FS) (q v r : List Char) :
    (fs.write q v).canRead r = fs.canRead r := rfl

/-! ## Distinctness of the sibling test-file paths -/

theorem sfx_in_ne_nil : ∀ i : Fin 3, slotDigit i ++ dotIn ≠ ([] : List Char) := by
  decide

theorem sfx_ans_ne_nil : ∀ i : Fin 3, slotDigit i ++ dotAns ≠ ([] : List Char) := by
  decide

theorem sfx_in_in : ∀ i j : Fin 3, i ≠ j →
    slotDigit i ++ dotIn ≠ slotDigit j ++ dotIn := by decide

theorem sfx_in_ans : ∀ i j : Fin 3,
    slotDigit i ++ dotIn ≠ slotDigit j ++ dotAns := by decide

theorem sfx_ans_ans : ∀ i j : Fin 3, i ≠ j →
    slotDigit i ++ dotAns ≠ slotDigit j ++ dotAns := by decide

theorem head_sfx_in : ∀ i : Fin 3,
    (slotDigit i ++ dotIn).head? ≠ some ('.' : Char) := by decide

theorem head_sfx_ans : ∀ i : Fin 3,
    (slotDigit i ++ dotAns).head? ≠ some ('.' : Char) := by decide

theorem noSlash_sfx_in : ∀ i : Fin 3, ∀ c ∈ slotDigit i ++ dotIn,
    c ≠ ('/' : Char) := by decide

theorem noSlash_sfx_ans : ∀ i : Fin 3, ∀ c ∈ slotDigit i ++ dotAns,
    c ≠ ('/' : Char) := by decide

theorem inPath_ne_inPath (p : List Char) {i j : Fin 3} (h : i ≠ j) :
    inPath p i ≠ inPath p j :=
  fun he => sfx_in_in i j h (List.append_cancel_left he)

theorem inPath_ne_ansPath (p : List Char) (i j : Fin 3) :
    inPath p i ≠ ansPath p j :=
  fun he => sfx_in_ans i j (List.append_cancel_left he)

theorem ansPath_ne_ansPath (p : List Char) {i j : Fin 3} (h : i ≠ j) :
    ansPath p i ≠ ansPath p j :=
  fun he => sfx_ans_ans i j h (List.append_cancel_left he)

/-! ## The backing file path differs from all six sibling test paths -/

theorem takeWhile_append_stop (pr : Char → Bool) (xs : List Char) (y : Char)
    (ys : List Char) (hy : pr y = false) :
    (xs ++ y :: ys).takeWhile pr = xs.takeWhile pr := by
  induction xs with
  | nil => simp [List.takeWhile_cons, hy]
  | cons x xs ih =>
    by_cases h : pr x <;> simp [List.takeWhile_cons, h, ih]

theorem dropWhile_ne_decomp (d : Char) :
    ∀ l : List Char, l.contains d = true →
    l.dropWhile (fun c => c != d) = d :: (l.dropWhile (fun c => c != d)).tail := by
  intro l
  induction l with
  | nil => intro hc; simp at hc
  | cons c cs ih =>
    intro hc
    by_cases h : c = d
    · subst h
      simp [List.dropWhile_cons]
    · have hpred : (c != d) = true := bne_iff_ne.mpr h
      have hcs : cs.contains d = true := by
        have hmem : d ∈ c :: cs := List.elem_iff.mp hc
        rcases List.mem_cons.mp hmem with h1 | h2
        · exact absurd h1.symm h
        · exact List.elem_iff.mpr h2
      simp only [List.dropWhile_cons, hpred, if_true]
      exact ih hcs

theorem split_at_last (d : Char) (n : List Char) (h : n.contains d = true) :
    n = ((n.reverse.dropWhile (fun c => c != d)).drop 1).reverse
        ++ d :: (n.reverse.takeWhile (fun c => c != d)).reverse ∧
    ∀ c ∈ (n.reverse.takeWhile (fun c => c != d)).reverse, c ≠ d := by
  have hrev : n.reverse.contains d = true := by
    rw [List.elem_iff, List.mem_reverse]
    exact List.elem_iff.mp h
  have hdec := dropWhile_ne_decomp d n.reverse hrev
  constructor
  · obtain ⟨t, ht⟩ : ∃ t, n.reverse.dropWhile (fun c => c != d) = d :: t :=
      ⟨_, hdec⟩
    conv_lhs => rw [← List.reverse_reverse n,
      ← List.takeWhile_append_dropWhile (fun c => c != d) n.reverse, ht]
    rw [ht]
    show _ = t.reverse ++ d :: (n.reverse.takeWhile (fun c => c != d)).reverse
    rw [List.reverse_append, List.reverse_cons, List.append_assoc,
      List.singleton_append]
  · intro c hc
    rw [List.mem_reverse] at hc
    simpa using List.mem_takeWhile_imp hc

theorem fileNameOf_append_slash (A B : List Char) (hB : ∀ c ∈ B, c ≠ '/') :
    fileNameOf (A ++ '/' :: B) = B := by
  unfold fileNameOf
  have hBrev : ∀ c ∈ B.reverse, (fun c => c != '/') c = true := by
    intro c hc
    exact bne_iff_ne.mpr (hB c (List.mem_reverse.mp hc))
  rw [List.reverse_append, List.reverse_cons, List.append_assoc,
    List.singleton_append,
    takeWhile_append_stop _ _ _ _ (by simp),
    List.takeWhile_eq_self_iff.mpr hBrev, List.reverse_reverse]

theorem fileNameOf_noSlash (p : List Char) : ∀ c ∈ fileNameOf p, c ≠ '/' := by
  intro c hc
  unfold fileNameOf at hc
  rw [List.mem_reverse] at hc
  simpa using List.mem_takeWhile_imp hc

theorem completeBaseName_sub (n : List Char) :
    ∀ c ∈ completeBaseName n, c ∈ n := by
  intro c hc
  unfold completeBaseName at hc
  by_cases h : n.contains '.'
  · rw [if_pos h] at hc
    have hsplit := (split_at_last '.' n h).1
    have hmem : c ∈ ((n.reverse.dropWhile (fun c => c != '.')).drop 1).reverse
        ++ '.' :: (n.reverse.takeWhile (fun c => c != '.')).reverse :=
      List.mem_append.mpr (Or.inl hc)
    rw [← hsplit] at hmem
    exact hmem
  · rw [if_neg h] at hc
    exact hc

theorem backing_ne_sfx (p sfx : List Char) (hnil : sfx ≠ [])
    (hhead : sfx.head? ≠ some ('.' : Char)) (hslash : ∀ c ∈ sfx, c ≠ '/')
    (h : p = testFileBase p ++ sfx) : False := by
  have hname : fileNameOf p = completeBaseName (fileNameOf p) ++ sfx := by
    conv_lhs => rw [h]
    unfold testFileBase
    rw [List.append_assoc, List.cons_append]
    apply fileNameOf_append_slash
    intro c hc
    rcases List.mem_append.mp hc with h1 | h2
    · exact fileNameOf_noSlash p c (completeBaseName_sub (fileNameOf p) c h1)
    · exact hslash c h2
  by_cases hdot : (fileNameOf p).contains '.'
  · have hsplit := (split_at_last '.' (fileNameOf p) hdot).1
    have hcbn : completeBaseName (fileNameOf p)
        = (((fileNameOf p).reverse.dropWhile (fun c => c != '.')).drop 1).reverse := by
      unfold completeBaseName
      rw [if_pos hdot]
    rw [hcbn] at hname
    have heq := List.append_cancel_left (hname.symm.trans hsplit)
    exact hhead (by rw [heq]; rfl)
  · have hcbn : completeBaseName (fileNameOf p) = fileNameOf p := by
      unfold completeBaseName
      rw [if_neg hdot]
    rw [hcbn] at hname
    have h2 : fileNameOf p ++ ([] : List Char) = fileNameOf p ++ sfx := by
      simpa using hname
    exact hnil (List.append_cancel_left h2).symm

theorem backing_ne_inPath (p : List Char) (i : Fin 3) : p ≠ inPath p i :=
  fun h => backing_ne_sfx p (slotDigit i ++ dotIn) (sfx_in_ne_nil i)
    (head_sfx_in i) (noSlash_sfx_in i) h

theorem backing_ne_ansPath (p : List Char) (i : Fin 3) : p ≠ ansPath p i :=
  fun h => backing_ne_sfx p (slotDigit i ++ dotAns) (sfx_ans_ne_nil i)
    (head_sfx_ans i) (noSlash_sfx_ans i) h

/-! ## Behaviour of one saveTests iteration -/

theorem saveSlot_writeFail (p : List Char) (st : WState) (i : Fin 3) (fs : FS) :
    (saveSlot p st i fs).writeFail = fs.writeFail := by
  unfold saveSlot
  dsimp only
  split_ifs <;> rfl

theorem saveSlot_readFail (p : List Char) (st : WState) (i : Fin 3) (fs : FS) :
    (saveSlot p st i fs).readFail = fs.readFail := by
  unfold saveSlot
  dsimp only
  split_ifs <;> rfl

theorem saveSlot_canWrite (p : List Char) (st : WState) (i : Fin 3) (fs : FS)
    (q : List Char) : (saveSlot p st i fs).canWrite q = fs.canWrite q := by
  unfold FS.canWrite
  rw [saveSlot_writeFail]

theorem saveSlot_canRead (p : List Char) (st : WState) (i : Fin 3) (fs : FS)
    (q : List Char) : (saveSlot p st i fs).canRead q = fs.canRead q := by
  unfold FS.canRead
  rw [saveSlot_readFail]

theorem lookup_saveSlot_other (p : List Char) (st : WState) (i : Fin 3)
    (fs : FS) (q : List Char) (h1 : q ≠ inPath p i) (h2 : q ≠ ansPath p i) :
    (saveSlot p st i fs).lookup q = fs.lookup q := by
  unfold saveSlot
  dsimp only
  split_ifs <;>
    simp [FS.lookup_write_ne, h1, h2]

theorem lookup_saveSlot_in_iff (p : List Char) (st : WState) (i : Fin 3)
    (fs : FS) :
    (saveSlot p st i fs).lookup (inPath p i) =
      if isBlank (st.slots i).input = false ∧ fs.canWrite (inPath p i) = true
      then some (st.slots i).input else fs.lookup (inPath p i) := by
  have hne : inPath p i ≠ ansPath p i := inPath_ne_ansPath p i i
  unfold saveSlot
  dsimp only
  by_cases h1 : isBlank (st.slots i).input <;>
    by_cases h2 : fs.canWrite (inPath p i) <;>
      simp [h1, h2, FS.lookup_write_self, FS.lookup_write_ne, FS.canWrite_write,
        hne] <;>
      split_ifs <;>
      simp [FS.lookup_write_self, FS.lookup_write_ne, hne]

theorem lookup_saveSlot_ans_iff (p : List Char) (st : WState) (i : Fin 3)
    (fs : FS) :
    (saveSlot p st i fs).lookup (ansPath p i) =
      if isBlank (st.slots i).expected = false ∧ fs.canWrite (ansPath p i) = true
      then some (st.slots i).expected else fs.lookup (ansPath p i) := by
  have hne : ansPath p i ≠ inPath p i := (inPath_ne_ansPath p i i).symm
  unfold saveSlot
  dsimp only
  by_cases h1 : isBlank (st.slots i).expected <;>
    by_cases h2 : fs.canWrite (ansPath p i) <;>
      split_ifs <;>
      simp_all [FS.lookup_write_self, FS.lookup_write_ne, FS.canWrite_write, hne]

/-! ## Behaviour of saveTests -/

theorem saveTests_eq (st : WState) (fs : FS) (p : List Char)
    (hof : st.openFile = some p) (hflag : st.shouldSaveTests = true) :
    saveTests st fs = saveSlot p st 2 (saveSlot p st 1 (saveSlot p st 0 fs)) := by
  unfold saveTests
  rw [hof]
  dsimp only
  rw [hflag]
  rfl

theorem saveTests_none (st : WState) (fs : FS) (hof : st.openFile = none) :
    saveTests st fs = fs := by
  unfold saveTests
  rw [hof]

theorem saveTests_noFlag (st : WState) (fs : FS)
    (hflag : st.shouldSaveTests = false) : saveTests st fs = fs := by
  unfold saveTests
  cases h : st.openFile with
  | none => rfl
  | some p =>
    dsimp only
    rw [hflag]
    rfl

theorem lookup_save3_in (p : List Char) (st : WState) (fs : FS) (i : Fin 3) :
    (saveSlot p st 2 (saveSlot p st 1 (saveSlot p st 0 fs))).lookup (inPath p i)
      = (if isBlank (st.slots i).input = false ∧ fs.canWrite (inPath p i) = true
         then some (st.slots i).input else fs.lookup (inPath p i)) := by
  have h0 : (saveSlot p st 2 (saveSlot p st 1 (saveSlot p st 0 fs))).lookup
        (inPath p 0)
      = (if isBlank (st.slots 0).input = false ∧ fs.canWrite (inPath p 0) = true
         then some (st.slots 0).input else fs.lookup (inPath p 0)) := by
    rw [lookup_saveSlot_other p st 2 _ _
        (inPath_ne_inPath p (by decide)) (inPath_ne_ansPath p 0 2),
      lookup_saveSlot_other p st 1 _ _
        (inPath_ne_inPath p (by decide)) (inPath_ne_ansPath p 0 1),
      lookup_saveSlot_in_iff]
  have h1 : (saveSlot p st 2 (saveSlot p st 1 (saveSlot p st 0 fs))).lookup
        (inPath p 1)
      = (if isBlank (st.slots 1).input = false ∧ fs.canWrite (inPath p 1) = true
         then some (st.slots 1).input else fs.lookup (inPath p 1)) := by
    rw [lookup_saveSlot_other p st 2 _ _
        (inPath_ne_inPath p (by decide)) (inPath_ne_ansPath p 1 2),
      lookup_saveSlot_in_iff, saveSlot_canWrite,
      lookup_saveSlot_other p st 0 _ _
        (inPath_ne_inPath p (by decide)) (inPath_ne_ansPath p 1 0)]
  have h2 : (saveSlot p st 2 (saveSlot p st 1 (saveSlot p st 0 fs))).lookup
        (inPath p 2)
      = (if isBlank (st.slots 2).input = false ∧ fs.canWrite (inPath p 2) = true
         then some (st.slots 2).input else fs.lookup (inPath p 2)) := by
    rw [lookup_saveSlot_in_iff, saveSlot_canWrite, saveSlot_canWrite,
      lookup_saveSlot_other p st 1 _ _
        (inPath_ne_inPath p (by decide)) (inPath_ne_ansPath p 2 1),
      lookup_saveSlot_other p st 0 _ _
        (inPath_ne_inPath p (by decide)) (inPath_ne_ansPath p 2 0)]
  fin_cases i
  · exact h0
  · exact h1
  · exact h2

theorem lookup_save3_ans (p : List Char) (st : WState) (fs : FS) (i : Fin 3) :
    (saveSlot p st 2 (saveSlot p st 1 (saveSlot p st 0 fs))).lookup (ansPath p i)
      = (if isBlank (st.slots i).expected = false ∧ fs.canWrite (ansPath p i) = true
         then some (st.slots i).expected else fs.lookup (ansPath p i)) := by
  have h0 : (saveSlot p st 2 (saveSlot p st 1 (saveSlot p st 0 fs))).lookup
        (ansPath p 0)
      = (if isBlank (st.slots 0).expected = false ∧ fs.canWrite (ansPath p 0) = true
         then some (st.slots 0).expected else fs.lookup (ansPath p 0)) := by
    rw [lookup_saveSlot_other p st 2 _ _
        (inPath_ne_ansPath p 2 0).symm (ansPath_ne_ansPath p (by decide)),
      lookup_saveSlot_other p st 1 _ _
        (inPath_ne_ansPath p 1 0).symm (ansPath_ne_ansPath p (by decide)),
      lookup_saveSlot_ans_iff]
  have h1 : (saveSlot p st 2 (saveSlot p st 1 (saveSlot p st 0 fs))).lookup
        (ansPath p 1)
      = (if isBlank (st.slots 1).expected = false ∧ fs.canWrite (ansPath p 1) = true
         then some (st.slots 1).expected else fs.lookup (ansPath p 1)) := by
    rw [lookup_saveSlot_other p st 2 _ _
        (inPath_ne_ansPath p 2 1).symm (ansPath_ne_ansPath p (by decide)),
      lookup_saveSlot_ans_iff, saveSlot_canWrite,
      lookup_saveSlot_other p st 0 _ _
        (inPath_ne_ansPath p 0 1).symm (ansPath_ne_ansPath p (by decide))]
  have h2 : (saveSlot p st 2 (saveSlot p st 1 (saveSlot p st 0 fs))).lookup
        (ansPath p 2)
      = (if isBlank (st.slots 2).expected = false ∧ fs.canWrite (ansPath p 2) = true
         then some (st.slots 2).expected else fs.lookup (ansPath p 2)) := by
    rw [lookup_saveSlot_ans_iff, saveSlot_canWrite, saveSlot_canWrite,
      lookup_saveSlot_other p st 1 _ _
        (inPath_ne_ansPath p 1 2).symm (ansPath_ne_ansPath p (by decide)),
      lookup_saveSlot_other p st 0 _ _
        (inPath_ne_ansPath p 0 2).symm (ansPath_ne_ansPath p (by decide))]
  fin_cases i
  · exact h0
  · exact h1
  · exact h2

theorem lookup_saveTests_in (st : WState) (fs : FS) (p : List Char) (i : Fin 3)
    (hof : st.openFile = some p) (hflag : st.shouldSaveTests = true) :
    (saveTests st fs).lookup (inPath p i)
      = (if isBlank (st.slots i).input = false ∧ fs.canWrite (inPath p i) = true
         then some (st.slots i).input else fs.lookup (inPath p i)) := by
  rw [saveTests_eq st fs p hof hflag]
  exact lookup_save3_in p st fs i

theorem lookup_saveTests_ans (st : WState) (fs : FS) (p : List Char) (i : Fin 3)
    (hof : st.openFile = some p) (hflag : st.shouldSaveTests = true) :
    (saveTests st fs).lookup (ansPath p i)
      = (if isBlank (st.slots i).expected = false ∧ fs.canWrite (ansPath p i) = true
         then some (st.slots i).expected else fs.lookup (ansPath p i)) := by
  rw [saveTests_eq st fs p hof hflag]
  exact lookup_save3_ans p st fs i

theorem lookup_saveTests_other (st : WState) (fs : FS) (q : List Char)
    (h : ∀ p, st.openFile = some p →
      ∀ i : Fin 3, q ≠ inPath p i ∧ q ≠ ansPath p i) :
    (saveTests st fs).lookup q = fs.lookup q := by
  cases hof : st.openFile with
  | none => rw [saveTests_none st fs hof]
  | some p =>
    by_cases hflag : st.shouldSaveTests = true
    · rw [saveTests_eq st fs p hof hflag,
        lookup_saveSlot_other p st 2 _ _ (h p hof 2).1 (h p hof 2).2,
        lookup_saveSlot_other p st 1 _ _ (h p hof 1).1 (h p hof 1).2,
        lookup_saveSlot_other p st 0 _ _ (h p hof 0).1 (h p hof 0).2]
    · have hflag2 : st.shouldSaveTests = false := by simpa using hflag
      rw [saveTests_noFlag st fs hflag2]

theorem saveTests_readFail (st : WState) (fs : FS) :
    (saveTests st fs).readFail = fs.readFail := by
  cases hof : st.openFile with
  | none => rw [saveTests_none st fs hof]
  | some p =>
    by_cases hflag : st.shouldSaveTests = true
    · rw [saveTests_eq st fs p hof hflag, saveSlot_readFail, saveSlot_readFail,
        saveSlot_readFail]
    · have hflag2 : st.shouldSaveTests = false := by simpa using hflag
      rw [saveTests_noFlag st fs hflag2]

theorem saveTests_canRead (st : WState) (fs : FS) (q : List Char) :
    (saveTests st fs).canRead q = fs.canRead q := by
  unfold FS.canRead
  rw [saveTests_readFail]

/-- C2: whenever a backing file path exists and the save-tests flag is on,
saveTests writes the sibling file of each slot input that is non-blank
after trimming with the raw input text (and likewise the .ans sibling for
each non-blank expected output), writes nothing for a blank field (any
pre-existing file keeps its contents), leaves a file untouched when it
cannot be opened for writing — independently per file, so one failure does
not block the other slots — and writes nothing at all when no backing file
exists or the flag is off. -/
theorem C2_saveTests_spec (st : WState) (fs : FS) :
    (st.openFile = none → saveTests st fs = fs) ∧
    (st.shouldSaveTests = false → saveTests st fs = fs) ∧
    (∀ p, st.openFile = some p → st.shouldSaveTests = true → ∀ i : Fin 3,
      (isBlank (st.slots i).input = false → fs.canWrite (inPath p i) = true →
        (saveTests st fs).lookup (inPath p i) = some (st.slots i).input) ∧
      (isBlank (st.slots i).input = true →
        (saveTests st fs).lookup (inPath p i) = fs.lookup (inPath p i)) ∧
      (fs.canWrite (inPath p i) = false →
        (saveTests st fs).lookup (inPath p i) = fs.lookup (inPath p i)) ∧
      (isBlank (st.slots i).expected = false → fs.canWrite (ansPath p i) = true →
        (saveTests st fs).lookup (ansPath p i) = some (st.slots i).expected) ∧
      (isBlank (st.slots i).expected = true →
        (saveTests st fs).lookup (ansPath p i) = fs.lookup (ansPath p i)) ∧
      (fs.canWrite (ansPath p i) = false →
        (saveTests st fs).lookup (ansPath p i) = fs.lookup (ansPath p i))) := by
  refine ⟨fun hof => saveTests_none st fs hof,
    fun hflag => saveTests_noFlag st fs hflag, ?_⟩
  intro p hof hflag i
  refine ⟨?_, ?_, ?_, ?_, ?_, ?_⟩
  · intro hnb hw
    rw [lookup_saveTests_in st fs p i hof hflag, if_pos ⟨hnb, hw⟩]
  · intro hb
    rw [lookup_saveTests_in st fs p i hof hflag, if_neg (by simp [hb])]
  · intro hw
    rw [lookup_saveTests_in st fs p i hof hflag, if_neg (by simp [hw])]
  · intro hnb hw
    rw [lookup_saveTests_ans st fs p i hof hflag, if_pos ⟨hnb, hw⟩]
  · intro hb
    rw [lookup_saveTests_ans st fs p i hof hflag, if_neg (by simp [hb])]
  · intro hw
    rw [lookup_saveTests_ans st fs p i hof hflag, if_neg (by simp [hw])]

/-! ## Concrete states used by the witnesses -/

/-- A concrete backing-file path. -/
def exP : List Char := "/w/a.cpp".data

/-- A concrete slot assignment: slot 0 fully populated, slot 1 with a blank
expected output, slot 2 entirely blank. -/
def exSlots : Fin 3 → Slot
  | ⟨0, _⟩ => { input := "1 2".data, expected := "3".data, output := [],
                verdict := Verdict.UNKNOWN }
  | ⟨1, _⟩ => { input := "5".data, expected := [], output := [],
                verdict := Verdict.UNKNOWN }
  | ⟨2, _⟩ => { input := " ".data, expected := "  ".data, output := [],
                verdict := Verdict.UNKNOWN }

/-- A concrete window state with a backing file and the flag on. -/
def exSt : WState :=
  { slots := exSlots, openFile := some exP, openIsOpen := true,
    shouldSaveTests := true, editorText := "int main".data, templatePath := [] }

/-- An empty, fully permissive file system. -/
def exFS : FS := { files := [], readFail := [], writeFail := [] }

/-- Witness for C2: on the concrete state, the non-blank input of slot 0 is
written to its sibling .in file, and the blank expected output of slot 1
leaves its .ans file untouched. -/
theorem C2_saveTests_spec_witness :
    (saveTests exSt exFS).lookup (inPath exP 0) = some ("1 2".data) ∧
    (saveTests exSt exFS).lookup (ansPath exP 1) = exFS.lookup (ansPath exP 1) := by
  constructor
  · exact ((C2_saveTests_spec exSt exFS).2.2 exP rfl rfl 0).1 (by decide) (by decide)
  · exact ((C2_saveTests_spec exSt exFS).2.2 exP rfl rfl 1).2.2.2.2.1 (by decide)

/-! ## Behaviour of loadTests -/

theorem loadSlot_slots_self (p : List Char) (fs : FS) (i : Fin 3)
    (st : WState) :
    (loadSlot p fs i st).slots i =
      { input := if fs.fileExists (inPath p i) && fs.canRead (inPath p i)
          then fs.read (inPath p i) else (st.slots i).input
        expected := if fs.fileExists (ansPath p i) && fs.canRead (ansPath p i)
          then fs.read (ansPath p i) else (st.slots i).expected
        output := (st.slots i).output
        verdict := (st.slots i).verdict } := by
  unfold loadSlot
  dsimp only
  rw [Function.update_same]
  split_ifs <;> rfl

theorem loadSlot_slots_other (p : List Char) (fs : FS) (i : Fin 3)
    (st : WState) (j : Fin 3) (h : j ≠ i) :
    (loadSlot p fs i st).slots j = st.slots j := by
  unfold loadSlot
  dsimp only
  exact Function.update_noteq h _ _

theorem loadTests_none (st : WState) (fs : FS) (hof : st.openFile = none) :
    loadTests st fs = st := by
  unfold loadTests
  rw [hof]

theorem loadTests_noFlag (st : WState) (fs : FS)
    (hflag : st.shouldSaveTests = false) : loadTests st fs = st := by
  unfold loadTests
  cases h : st.openFile with
  | none => rfl
  | some p =>
    dsimp only
    rw [hflag]
    rfl

theorem loadTests_eq (st : WState) (fs : FS) (p : List Char)
    (hof : st.openFile = some p) (hflag : st.shouldSaveTests = true) :
    loadTests st fs = loadSlot p fs 2 (loadSlot p fs 1 (loadSlot p fs 0 st)) := by
  unfold loadTests
  rw [hof]
  dsimp only
  rw [hflag]
  rfl

theorem loadTests_slots (st : WState) (fs : FS) (p : List Char)
    (hof : st.openFile = some p) (hflag : st.shouldSaveTests = true)
    (i : Fin 3) :
    (loadTests st fs).slots i =
      { input := if fs.fileExists (inPath p i) && fs.canRead (inPath p i)
          then fs.read (inPath p i) else (st.slots i).input
        expected := if fs.fileExists (ansPath p i) && fs.canRead (ansPath p i)
          then fs.read (ansPath p i) else (st.slots i).expected
        output := (st.slots i).output
        verdict := (st.slots i).verdict } := by
  rw [loadTests_eq st fs p hof hflag]
  have h0 : (loadSlot p fs 2 (loadSlot p fs 1 (loadSlot p fs 0 st))).slots 0 =
      { input := if fs.fileExists (inPath p 0) && fs.canRead (inPath p 0)
          then fs.read (inPath p 0) else (st.slots 0).input
        expected := if fs.fileExists (ansPath p 0) && fs.canRead (ansPath p 0)
          then fs.read (ansPath p 0) else (st.slots 0).expected
        output := (st.slots 0).output
        verdict := (st.slots 0).verdict } := by
    rw [loadSlot_slots_other p fs 2 _ 0 (by decide),
      loadSlot_slots_other p fs 1 _ 0 (by decide),
      loadSlot_slots_self]
  have h1 : (loadSlot p fs 2 (loadSlot p fs 1 (loadSlot p fs 0 st))).slots 1 =
      { input := if fs.fileExists (inPath p 1) && fs.canRead (inPath p 1)
          then fs.read (inPath p 1) else (st.slots 1).input
        expected := if fs.fileExists (ansPath p 1) && fs.canRead (ansPath p 1)
          then fs.read (ansPath p 1) else (st.slots 1).expected
        output := (st.slots 1).output
        verdict := (st.slots 1).verdict } := by
    rw [loadSlot_slots_other p fs 2 _ 1 (by decide),
      loadSlot_slots_self,
      loadSlot_slots_other p fs 0 st 1 (by decide)]
  have h2 : (loadSlot p fs 2 (loadSlot p fs 1 (loadSlot p fs 0 st))).slots 2 =
      { input := if fs.fileExists (inPath p 2) && fs.canRead (inPath p 2)
          then fs.read (inPath p 2) else (st.slots 2).input
        expected := if fs.fileExists (ansPath p 2) && fs.canRead (ansPath p 2)
          then fs.read (ansPath p 2) else (st.slots 2).expected
        output := (st.slots 2).output
        verdict := (st.slots 2).verdict } := by
    rw [loadSlot_slots_self,
      loadSlot_slots_other p fs 1 _ 2 (by decide),
      loadSlot_slots_other p fs 0 st 2 (by decide)]
  fin_cases i
  · exact h0
  · exact h1
  · exact h2

/-- C3: whenever a backing file path exists and the save-tests flag is on,
loadTests replaces the input of each slot whose sibling .in file exists and
opens for reading with the full contents of that file (and likewise the expected
output from the .ans sibling), leaves a field untouched when its file is
missing or unreadable without aborting the other slots, never touches
outputs or verdicts, and changes nothing at all when no backing file exists
or the flag is off. -/
theorem C3_loadTests_spec (st : WState) (fs : FS) :
    (st.openFile = none → loadTests st fs = st) ∧
    (st.shouldSaveTests = false → loadTests st fs = st) ∧
    (∀ p, st.openFile = some p → st.shouldSaveTests = true → ∀ i : Fin 3,
      (fs.fileExists (inPath p i) = true → fs.canRead (inPath p i) = true →
        ((loadTests st fs).slots i).input = fs.read (inPath p i)) ∧
      (fs.fileExists (inPath p i) = false ∨ fs.canRead (inPath p i) = false →
        ((loadTests st fs).slots i).input = (st.slots i).input) ∧
      (fs.fileExists (ansPath p i) = true → fs.canRead (ansPath p i) = true →
        ((loadTests st fs).slots i).expected = fs.read (ansPath p i)) ∧
      (fs.fileExists (ansPath p i) = false ∨ fs.canRead (ansPath p i) = false →
        ((loadTests st fs).slots i).expected = (st.slots i).expected) ∧
      ((loadTests st fs).slots i).output = (st.slots i).output ∧
      ((loadTests st fs).slots i).verdict = (st.slots i).verdict) := by
  refine ⟨fun hof => loadTests_none st fs hof,
    fun hflag => loadTests_noFlag st fs hflag, ?_⟩
  intro p hof hflag i
  have hslots := loadTests_slots st fs p hof hflag i
  refine ⟨?_, ?_, ?_, ?_, ?_, ?_⟩
  · intro hex hcr
    rw [hslots]
    simp [hex, hcr]
  · intro h
    rw [hslots]
    rcases h with h | h <;> simp [h]
  · intro hex hcr
    rw [hslots]
    simp [hex, hcr]
  · intro h
    rw [hslots]
    rcases h with h | h <;> simp [h]
  · rw [hslots]
  · rw [hslots]

/-- A file system holding one stored test input next to the backing file. -/
def exFS3 : FS :=
  { files := [("/w/a1.in".data, "7 8".data)], readFail := [], writeFail := [] }

/-- Witness for C3: on the concrete state with one stored test file, the
input of slot 0 is replaced by the file contents and its expected output,
whose .ans file is absent, is untouched. -/
theorem C3_loadTests_spec_witness :
    ((loadTests exSt exFS3).slots 0).input = "7 8".data ∧
    ((loadTests exSt exFS3).slots 0).expected = "3".data := by
  constructor
  · exact ((C3_loadTests_spec exSt exFS3).2.2 exP rfl rfl 0).1 (by decide) (by decide)
  · exact ((C3_loadTests_spec exSt exFS3).2.2 exP rfl rfl 0).2.2.2.1 (by decide)

/-! ## C4: the save-then-load round trip -/

/-- A backing path for the C4 counterexample. -/
def exP4 : List Char := "/w/b.cpp".data

/-- A slot with every field empty. -/
def blankSlot : Slot :=
  { input := [], expected := [], output := [], verdict := Verdict.UNKNOWN }

/-- A window state whose slots are all blank. -/
def exSt4 : WState :=
  { slots := fun _ => blankSlot,
    openFile := some exP4, openIsOpen := true, shouldSaveTests := true,
    editorText := [], templatePath := [] }

/-- A file system holding a stale test file from an earlier save. -/
def exFS4 : FS :=
  { files := [("/w/b1.in".data, "stale".data)], readFail := [], writeFail := [] }

/-- Counterexample to C4 as stated: in a state with a backing file and the
flag on, slot 0 has an input that is empty after trimming, yet running
saveTests followed by loadTests modifies that input — the stale sibling
file left by an earlier save is loaded back, so the claimed invariance of
trim-empty slot fields fails. -/
theorem C4_roundTrip_counterexample :
    exSt4.openFile = some exP4 ∧ exSt4.shouldSaveTests = true ∧
    isBlank ((exSt4.slots 0).input) = true ∧
    ((loadTests exSt4 (saveTests exSt4 exFS4)).slots 0).input
      ≠ (exSt4.slots 0).input := by
  refine ⟨rfl, rfl, by decide, by decide⟩

/-- C4 amended: the round trip preserves every slot field, and writes no
file for a trim-empty field, provided the sibling file of each non-blank field
can be opened for writing and no sibling file pre-exists for a trim-empty
field (a fresh slot set).  Without the freshness condition a stale file is
loaded back into the blank field, and without writability the stale file
of a non-blank field survives and is loaded back. -/
theorem C4_roundTrip_amended (st : WState) (fs : FS) (p : List Char)
    (hof : st.openFile = some p) (hflag : st.shouldSaveTests = true)
    (hwIn : ∀ i : Fin 3, isBlank (st.slots i).input = false →
      fs.canWrite (inPath p i) = true)
    (hwAns : ∀ i : Fin 3, isBlank (st.slots i).expected = false →
      fs.canWrite (ansPath p i) = true)
    (hfreshIn : ∀ i : Fin 3, isBlank (st.slots i).input = true →
      fs.fileExists (inPath p i) = false)
    (hfreshAns : ∀ i : Fin 3, isBlank (st.slots i).expected = true →
      fs.fileExists (ansPath p i) = false)
    (i : Fin 3) :
    ((loadTests st (saveTests st fs)).slots i).input = (st.slots i).input ∧
    ((loadTests st (saveTests st fs)).slots i).expected = (st.slots i).expected ∧
    (isBlank (st.slots i).input = true →
      (saveTests st fs).lookup (inPath p i) = fs.lookup (inPath p i)) ∧
    (isBlank (st.slots i).expected = true →
      (saveTests st fs).lookup (ansPath p i) = fs.lookup (ansPath p i)) := by
  have hslots := loadTests_slots st (saveTests st fs) p hof hflag i
  have hskipIn : isBlank (st.slots i).input = true →
      (saveTests st fs).lookup (inPath p i) = fs.lookup (inPath p i) := by
    intro hb
    rw [lookup_saveTests_in st fs p i hof hflag, if_neg (by simp [hb])]
  have hskipAns : isBlank (st.slots i).expected = true →
      (saveTests st fs).lookup (ansPath p i) = fs.lookup (ansPath p i) := by
    intro hb
    rw [lookup_saveTests_ans st fs p i hof hflag, if_neg (by simp [hb])]
  refine ⟨?_, ?_, hskipIn, hskipAns⟩
  · rw [hslots]
    by_cases hb : isBlank (st.slots i).input
    · have hex : (saveTests st fs).fileExists (inPath p i) = false := by
        unfold FS.fileExists
        rw [hskipIn hb]
        have hx := hfreshIn i hb
        unfold FS.fileExists at hx
        exact hx
      simp [hex]
    · have hb2 : isBlank (st.slots i).input = false := by
        simpa using hb
      have hlk : (saveTests st fs).lookup (inPath p i)
          = some (st.slots i).input := by
        rw [lookup_saveTests_in st fs p i hof hflag, if_pos ⟨hb2, hwIn i hb2⟩]
      by_cases hr : (saveTests st fs).canRead (inPath p i)
      · have hex : (saveTests st fs).fileExists (inPath p i) = true := by
          unfold FS.fileExists
          rw [hlk]
          rfl
        have hrd : (saveTests st fs).read (inPath p i) = (st.slots i).input := by
          unfold FS.read
          rw [hlk]
          rfl
        simp [hex, hr, hrd]
      · have hr2 : (saveTests st fs).canRead (inPath p i) = false := by
          simpa using hr
        simp [hr2]
  · rw [hslots]
    by_cases hb : isBlank (st.slots i).expected
    · have hex : (saveTests st fs).fileExists (ansPath p i) = false := by
        unfold FS.fileExists
        rw [hskipAns hb]
        have hx := hfreshAns i hb
        unfold FS.fileExists at hx
        exact hx
      simp [hex]
    · have hb2 : isBlank (st.slots i).expected = false := by
        simpa using hb
      have hlk : (saveTests st fs).lookup (ansPath p i)
          = some (st.slots i).expected := by
        rw [lookup_saveTests_ans st fs p i hof hflag, if_pos ⟨hb2, hwAns i hb2⟩]
      by_cases hr : (saveTests st fs).canRead (ansPath p i)
      · have hex : (saveTests st fs).fileExists (ansPath p i) = true := by
          unfold FS.fileExists
          rw [hlk]
          rfl
        have hrd : (saveTests st fs).read (ansPath p i)
            = (st.slots i).expected := by
          unfold FS.read
          rw [hlk]
          rfl
        simp [hex, hr, hrd]
      · have hr2 : (saveTests st fs).canRead (ansPath p i) = false := by
          simpa using hr
        simp [hr2]

/-- Witness for the amended C4: the concrete populated state round-trips —
slot 0 keeps its input and expected output exactly. -/
theorem C4_roundTrip_amended_witness :
    ((loadTests exSt (saveTests exSt exFS)).slots 0).input = "1 2".data ∧
    ((loadTests exSt (saveTests exSt exFS)).slots 0).expected = "3".data := by
  have h := C4_roundTrip_amended exSt exFS exP rfl rfl
    (by decide) (by decide) (by decide) (by decide) 0
  exact ⟨h.1, h.2.1⟩

/-! ## C10: clearTests -/

/-- C10: clearTests with outputOnly set clears every actual output and
resets every verdict to UNKNOWN while keeping every input and expected
output; with outputOnly unset it additionally clears every input and
expected output — so a run, which clears outputs only, never loses the
stored test inputs or expected answers. -/
theorem C10_clearTests_spec (st : WState) (i : Fin 3) :
    ((clearTests st true).slots i).output = [] ∧
    ((clearTests st true).slots i).verdict = Verdict.UNKNOWN ∧
    ((clearTests st true).slots i).input = (st.slots i).input ∧
    ((clearTests st true).slots i).expected = (st.slots i).expected ∧
    ((clearTests st false).slots i).output = [] ∧
    ((clearTests st false).slots i).verdict = Verdict.UNKNOWN ∧
    ((clearTests st false).slots i).input = [] ∧
    ((clearTests st false).slots i).expected = [] :=
  ⟨rfl, rfl, rfl, rfl, rfl, rfl, rfl, rfl⟩

/-! ## C5: the run-completion callback -/

/-- The slot value stored by executionFinished: the output always becomes
the captured text, the verdict is recomputed only when both the output and
the expected text are non-empty. -/
def finishedSlot (s : Slot) (so : List Char) : Slot :=
  if so.isEmpty || s.expected.isEmpty then { s with output := so }
  else
    let v := if isVerdictPass so s.expected then Verdict.ACCEPTED
      else Verdict.WRONG_ANSWER
    { s with output := so, verdict := v }

theorem executionFinished_shape (st : WState) (id : Fin 3) (m : Int)
    (so : List Char) :
    executionFinished st id m so
      = { st with slots := Function.update st.slots id (finishedSlot (st.slots id) so) } := by
  unfold executionFinished finishedSlot
  dsimp only
  split_ifs <;> rfl

theorem executionFinished_comm (st : WState) (id j : Fin 3) (m m2 : Int)
    (so so2 : List Char) (hj : j ≠ id) :
    executionFinished (executionFinished st id m so) j m2 so2 =
      executionFinished (executionFinished st j m2 so2) id m so := by
  rw [executionFinished_shape st id m so, executionFinished_shape st j m2 so2]
  rw [executionFinished_shape _ j m2 so2, executionFinished_shape _ id m so]
  dsimp only
  rw [Function.update_noteq hj, Function.update_noteq (Ne.symm hj)]
  exact congrArg (fun f => { st with slots := f })
    (Function.update_comm (Ne.symm hj) _ _ _)

/-- C5: executionFinished stores the captured standard output in slot id
and touches no other slot and no input or expected output; when the output
or the expected output of slot id is empty the verdict of slot id is left
unchanged, otherwise it becomes ACCEPTED exactly when isVerdictPass holds
of the output and the expected text and WRONG_ANSWER otherwise; and calls
for distinct slots commute, so any number of callbacks in any slot order
give the same result. -/
theorem C5_executionFinished_spec (st : WState) (id j : Fin 3) (m m2 : Int)
    (so so2 : List Char) (hj : j ≠ id) :
    ((executionFinished st id m so).slots id).output = so ∧
    ((executionFinished st id m so).slots id).input = (st.slots id).input ∧
    ((executionFinished st id m so).slots id).expected
      = (st.slots id).expected ∧
    (executionFinished st id m so).slots j = st.slots j ∧
    (executionFinished st id m so).openFile = st.openFile ∧
    (executionFinished st id m so).editorText = st.editorText ∧
    (so = [] ∨ (st.slots id).expected = [] →
      ((executionFinished st id m so).slots id).verdict
        = (st.slots id).verdict) ∧
    (so ≠ [] → (st.slots id).expected ≠ [] →
      ((executionFinished st id m so).slots id).verdict
        = (if isVerdictPass so (st.slots id).expected then Verdict.ACCEPTED
           else Verdict.WRONG_ANSWER)) ∧
    executionFinished (executionFinished st id m so) j m2 so2 =
      executionFinished (executionFinished st j m2 so2) id m so := by
  rw [executionFinished_shape st id m so]
  dsimp only
  rw [Function.update_same, Function.update_noteq hj]
  refine ⟨?_, ?_, ?_, rfl, rfl, rfl, ?_, ?_, ?_⟩
  · unfold finishedSlot
    split_ifs <;> rfl
  · unfold finishedSlot
    split_ifs <;> rfl
  · unfold finishedSlot
    split_ifs <;> rfl
  · intro h
    have hc : (so.isEmpty || (st.slots id).expected.isEmpty) = true := by
      rcases h with h | h <;> simp [h]
    unfold finishedSlot
    rw [if_pos hc]
  · intro h1 h2
    have hc : (so.isEmpty || (st.slots id).expected.isEmpty) = false := by
      simp [h1, h2]
    unfold finishedSlot
    rw [if_neg (by simp [hc])]
  · rw [← executionFinished_shape st id m so]
    exact executionFinished_comm st id j m m2 so so2 hj

/-- Slots for the C5 witness: slots 0 and 1 expect the text 42 with a
trailing newline, slot 2 expects nothing. -/
def exSlots5 : Fin 3 → Slot
  | ⟨0, _⟩ => { input := "a".data, expected := ('4' :: '2' :: '\n' :: []),
                output := [], verdict := Verdict.UNKNOWN }
  | ⟨1, _⟩ => { input := "b".data, expected := ('4' :: '2' :: '\n' :: []),
                output := [], verdict := Verdict.UNKNOWN }
  | ⟨2, _⟩ => { input := "c".data, expected := [], output := [],
                verdict := Verdict.UNKNOWN }

/-- The window state of the C5 witness. -/
def exSt5 : WState :=
  { slots := exSlots5, openFile := none, openIsOpen := false,
    shouldSaveTests := true, editorText := [], templatePath := [] }

/-- Witness for C5 at a concrete state: the end-to-end scenario of spec
section 8 — slot 0 expects the text 42 with a trailing newline and the run
prints 42, giving ACCEPTED; a WRONG_ANSWER and an UNKNOWN slot follow from
the other conjuncts at other inputs. -/
theorem C5_executionFinished_spec_witness :
    ((executionFinished exSt5 0 7 ("42".data)).slots 0).output = "42".data ∧
    ((executionFinished exSt5 0 7 ("42".data)).slots 0).verdict
      = Verdict.ACCEPTED ∧
    ((executionFinished exSt5 1 7 ("24".data)).slots 1).verdict
      = Verdict.WRONG_ANSWER ∧
    ((executionFinished exSt5 2 7 ("x".data)).slots 2).verdict
      = Verdict.UNKNOWN := by
  have h0 := C5_executionFinished_spec exSt5 0 1 7 7 ("42".data) [] (by decide)
  have h1 := C5_executionFinished_spec exSt5 1 0 7 7 ("24".data) [] (by decide)
  have h2 := C5_executionFinished_spec exSt5 2 0 7 7 ("x".data) [] (by decide)
  refine ⟨h0.1, ?_, ?_, ?_⟩
  · have := h0.2.2.2.2.2.2.2.1 (by decide) (by decide)
    rw [this]
    decide
  · have := h1.2.2.2.2.2.2.2.1 (by decide) (by decide)
    rw [this]
    decide
  · have := h2.2.2.2.2.2.2.1 (Or.inr (by decide))
    rw [this]
    rfl

/-! ## C6: the dirty-state check -/

/-- A configured template path. -/
def exT6 : List Char := "/t/tmpl.cpp".data

/-- A window state with no backing file and a configured template. -/
def exSt6 : WState :=
  { slots := fun _ => blankSlot, openFile := none, openIsOpen := false,
    shouldSaveTests := false, editorText := [], templatePath := exT6 }

/-- A file system in which the template exists but cannot be opened for
reading. -/
def exFS6 : FS :=
  { files := [(exT6, "x".data)], readFail := [exT6], writeFail := [] }

/-- The same file system with the template readable. -/
def exFS6r : FS :=
  { files := [(exT6, "x".data)], readFail := [], writeFail := [] }

/-- Counterexample to C6 as stated: with no backing file, a configured
template whose file exists, an empty buffer and template contents x, the
claim requires isTextChanged to report whether the buffer differs from the
template contents — true here — but the template cannot be opened for
reading, QFile::readAll yields the empty text, and the code returns
false. -/
theorem C6_isTextChanged_counterexample :
    exSt6.openFile = none ∧ exSt6.templatePath ≠ [] ∧
    exFS6.fileExists exSt6.templatePath = true ∧
    exSt6.editorText ≠ exFS6.read exSt6.templatePath ∧
    isTextChanged exSt6 exFS6 = false := by
  refine ⟨rfl, by decide, by decide, by decide, by decide⟩

/-- C6 amended: with no backing file, a configured template that exists
and is readable is compared byte for byte against the buffer; a template
that exists but fails to open reads back as empty, so the buffer is
compared against the empty text; with no template configured (or its file
missing) the buffer is compared against the empty text; with an open
backing file the buffer is compared against the current on-disk contents,
and a backing handle that is not open reports changed. -/
theorem C6_isTextChanged_amended (st : WState) (fs : FS) :
    (st.openFile = none → st.templatePath ≠ [] →
      fs.fileExists st.templatePath = true → fs.canRead st.templatePath = true →
      isTextChanged st fs = (st.editorText != fs.read st.templatePath)) ∧
    (st.openFile = none → st.templatePath ≠ [] →
      fs.fileExists st.templatePath = true → fs.canRead st.templatePath = false →
      isTextChanged st fs = (st.editorText != ([] : List Char))) ∧
    (st.openFile = none →
      st.templatePath = [] ∨ fs.fileExists st.templatePath = false →
      isTextChanged st fs = !st.editorText.isEmpty) ∧
    (∀ p, st.openFile = some p → st.openIsOpen = true →
      isTextChanged st fs = (fs.read p != st.editorText)) ∧
    (∀ p, st.openFile = some p → st.openIsOpen = false →
      isTextChanged st fs = true) := by
  refine ⟨?_, ?_, ?_, ?_, ?_⟩
  · intro hof hne hex hcr
    have h1 : (st.templatePath.length != 0) = true :=
      bne_iff_ne.mpr (fun hl => hne (List.length_eq_zero.mp hl))
    unfold isTextChanged
    rw [hof]
    dsimp only
    rw [if_pos (by rw [h1, hex]; rfl), if_pos hcr]
  · intro hof hne hex hcr
    have h1 : (st.templatePath.length != 0) = true :=
      bne_iff_ne.mpr (fun hl => hne (List.length_eq_zero.mp hl))
    unfold isTextChanged
    rw [hof]
    dsimp only
    rw [if_pos (by rw [h1, hex]; rfl), if_neg (by simp [hcr])]
  · intro hof h
    unfold isTextChanged
    rw [hof]
    dsimp only
    rcases h with h | h
    · rw [if_neg (by simp [h])]
    · rw [if_neg (by simp [h])]
  · intro p hof hopen
    unfold isTextChanged
    rw [hof]
    dsimp only
    rw [if_pos hopen]
  · intro p hof hopen
    unfold isTextChanged
    rw [hof]
    dsimp only
    rw [if_neg (by simp [hopen])]

/-- Witness for the amended C6: with the template readable, the empty
buffer differs from the template contents and the check reports changed. -/
theorem C6_isTextChanged_amended_witness :
    isTextChanged exSt6 exFS6r = true := by
  have h := (C6_isTextChanged_amended exSt6 exFS6r).1 rfl (by decide) (by decide)
    (by decide)
  rw [h]
  decide

/-! ## C7: the close-confirmation protocol -/

/-- C7: when the text is unchanged, closeChangedConfirm succeeds without
consulting the prompt (every choice gives the same result and nothing is
written); when it is changed, Discard succeeds without writing, Cancel
fails, and Save returns exactly what saveFile returns, so the save result
gates the overall success. -/
theorem C7_closeChangedConfirm_spec (st : WState) (fs : FS)
    (dlg : Option (List Char)) :
    (isTextChanged st fs = false →
      ∀ choice, closeChangedConfirm choice dlg st fs = (true, st, fs)) ∧
    (isTextChanged st fs = true →
      closeChangedConfirm Choice.discard dlg st fs = (true, st, fs) ∧
      closeChangedConfirm Choice.cancel dlg st fs = (false, st, fs) ∧
      closeChangedConfirm Choice.save dlg st fs = saveFile true dlg st fs ∧
      (closeChangedConfirm Choice.save dlg st fs).1
        = (saveFile true dlg st fs).1) := by
  constructor
  · intro h choice
    unfold closeChangedConfirm
    rw [if_neg (by simp [h])]
  · intro h
    unfold closeChangedConfirm
    refine ⟨?_, ?_, ?_, ?_⟩ <;> rw [if_pos h]

/-- Witness for C7: on a concrete unchanged state every choice (here
Cancel) succeeds with nothing written; on a concrete changed state Cancel
fails and changes nothing. -/
theorem C7_closeChangedConfirm_spec_witness :
    closeChangedConfirm Choice.cancel none exSt5 exFS = (true, exSt5, exFS) ∧
    closeChangedConfirm Choice.cancel none exSt exFS = (false, exSt, exFS) := by
  constructor
  · exact (C7_closeChangedConfirm_spec exSt5 exFS none).1 (by decide) Choice.cancel
  · exact ((C7_closeChangedConfirm_spec exSt exFS none).2 (by decide)).2.1

/-! ## C8: saving and the dirty-state check -/

theorem lookup_saveTests_backing (st : WState) (fs : FS) (p : List Char)
    (hof : st.openFile = some p) :
    (saveTests st fs).lookup p = fs.lookup p := by
  apply lookup_saveTests_other
  intro q hq i
  rw [hof] at hq
  cases hq
  exact ⟨backing_ne_inPath p i, backing_ne_ansPath p i⟩

/-- Typing one character at the end of the editor buffer. -/
def appendChar (st : WState) (c : Char) : WState :=
  { st with editorText := st.editorText ++ [c] }

/-- A window state with no backing file and a non-empty buffer. -/
def exSt8 : WState :=
  { slots := fun _ => blankSlot, openFile := none, openIsOpen := false,
    shouldSaveTests := false, editorText := "x".data, templatePath := [] }

/-- The path chosen in the save dialog of the C8 counterexample. -/
def exP8 : List Char := "/w/c.cpp".data

/-- A file system on which the chosen path cannot be opened for writing. -/
def exFS8 : FS := { files := [], readFail := [], writeFail := [exP8] }

/-- Counterexample to C8 as stated: saveFile force-saves to a path that
cannot be opened, leaves the new backing handle not-open, writes nothing —
and still returns true; isTextChanged on the unmodified buffer then
returns true, where the claim, reading a true return as a successful save,
requires false. -/
theorem C8_saveFile_counterexample :
    (saveFile true (some exP8) exSt8 exFS8).1 = true ∧
    isTextChanged (saveFile true (some exP8) exSt8 exFS8).2.1
      (saveFile true (some exP8) exSt8 exFS8).2.2 = true := by
  refine ⟨by decide, by decide⟩

/-- C8 amended: after a call to saveFile that returns true and leaves the
backing file handle open (so the buffer really was written), isTextChanged
on the unmodified buffer returns false; and after appending any single
character to the buffer isTextChanged returns true — the latter already
holds for every true-returning saveFile, open handle or not. -/
theorem C8_saveFile_amended (st : WState) (fs : FS) (force : Bool)
    (dlg : Option (List Char))
    (hres : (saveFile force dlg st fs).1 = true) :
    ((saveFile force dlg st fs).2.1.openIsOpen = true →
      isTextChanged (saveFile force dlg st fs).2.1
        (saveFile force dlg st fs).2.2 = false) ∧
    (∀ c : Char,
      isTextChanged (appendChar (saveFile force dlg st fs).2.1 c)
        (saveFile force dlg st fs).2.2 = true) := by
  have happ : ∀ t : List Char, ∀ c : Char, (t != t ++ [c]) = true := by
    intro t c
    apply bne_iff_ne.mpr
    intro h
    have := congrArg List.length h
    simp at this
  cases hof : st.openFile with
  | some p =>
    by_cases hio : st.openIsOpen
    · have hred : saveFile force dlg st fs
          = (true, st, saveTests st (fs.write p st.editorText)) := by
        unfold saveFile
        rw [hof]
        dsimp only
        rw [hio]
        rfl
      rw [hred]
      dsimp only
      have hrd : (saveTests st (fs.write p st.editorText)).read p
          = st.editorText := by
        unfold FS.read
        rw [lookup_saveTests_backing st _ p hof, FS.lookup_write_self]
        rfl
      constructor
      · intro _
        unfold isTextChanged
        rw [hof]
        dsimp only
        rw [if_pos hio, hrd]
        exact bne_self_eq_false _
      · intro c
        unfold isTextChanged appendChar
        dsimp only
        rw [hof]
        dsimp only
        rw [if_pos hio, hrd]
        exact happ st.editorText c
    · have hio2 : st.openIsOpen = false := by simpa using hio
      have hred : saveFile force dlg st fs = (true, st, saveTests st fs) := by
        unfold saveFile
        rw [hof]
        dsimp only
        rw [hio2]
        rfl
      rw [hred]
      dsimp only
      constructor
      · intro hopen
        rw [hio2] at hopen
        cases hopen
      · intro c
        unfold isTextChanged appendChar
        dsimp only
        rw [hof]
        dsimp only
        rw [if_neg (by simp [hio2])]
  | none =>
    cases force with
    | false =>
      have : (saveFile false dlg st fs).1 = false := by
        unfold saveFile
        rw [hof]
        rfl
      rw [hres] at this
      cases this
    | true =>
      cases dlg with
      | none =>
        have : (saveFile true none st fs).1 = false := by
          unfold saveFile
          rw [hof]
          rfl
        rw [hres] at this
        cases this
      | some fn =>
        by_cases hop : fs.canRead fn && fs.canWrite fn
        · have hred : saveFile true (some fn) st fs
              = (true,
                 { st with openFile := some fn, openIsOpen := true },
                 saveTests { st with openFile := some fn, openIsOpen := true }
                   (fs.write fn st.editorText)) := by
            unfold saveFile
            rw [hof]
            dsimp only
            rw [hop]
            rfl
          rw [hred]
          dsimp only
          have hrd : (saveTests
                { st with openFile := some fn, openIsOpen := true }
                (fs.write fn st.editorText)).read fn = st.editorText := by
            unfold FS.read
            rw [lookup_saveTests_backing _ _ fn rfl, FS.lookup_write_self]
            rfl
          constructor
          · intro _
            unfold isTextChanged
            dsimp only
            rw [hrd]
            exact bne_self_eq_false _
          · intro c
            unfold isTextChanged appendChar
            dsimp only
            rw [hrd]
            exact happ st.editorText c
        · have hop2 : (fs.canRead fn && fs.canWrite fn) = false := by
            simpa using hop
          have hred : saveFile true (some fn) st fs
              = (true,
                 { st with openFile := some fn, openIsOpen := false },
                 saveTests { st with openFile := some fn, openIsOpen := false }
                   fs) := by
            unfold saveFile
            rw [hof]
            dsimp only
            rw [hop2]
            rfl
          rw [hred]
          dsimp only
          constructor
          · intro hopen
            cases hopen
          · intro c
            unfold isTextChanged appendChar
            dsimp only
            rfl

/-- Witness for the amended C8: a concrete save through an open backing
handle leaves the buffer unchanged for isTextChanged, and one appended
character makes it changed. -/
theorem C8_saveFile_amended_witness :
    isTextChanged (saveFile false none exSt exFS).2.1
      (saveFile false none exSt exFS).2.2 = false ∧
    isTextChanged (appendChar (saveFile false none exSt exFS).2.1 'z')
      (saveFile false none exSt exFS).2.2 = true := by
  have h := C8_saveFile_amended exSt exFS false none (by decide)
  exact ⟨h.1 (by decide), h.2 'z'⟩
